import Mathlib

/-!
Verification of the toolbox package manager (src/toolbox.py) against its
specification.  The Python source is shallowly embedded: the filesystem,
the catalog file, the installation record file, the network, the user
confirmation prompt and the clock are explicit values; every operation is
a pure Lean function mirroring the corresponding Python function line by
line.  Machine integers are Nat with explicit reduction modulo 2^32 where
the SHA-256 computation overflows.
-/

/-! ## Generic association-list helpers (Python dict semantics)

A parsed JSON object is modelled as a list of key-value pairs in insertion
order with distinct keys (what json.load produces for a JSON object).
dictSet models d[k] = v : it replaces the value in place when the key is
present and appends otherwise; dictDel models del d[k]; lookupKey models
d[k] / d.get(k).
-/

def lookupKey : List (String × α) → String → Option α
  | [], _ => none
  | p :: ps, k => if p.1 = k then some p.2 else lookupKey ps k

def dictSet : List (String × α) → String → α → List (String × α)
  | [], k, v => [(k, v)]
  | p :: ps, k, v => if p.1 = k then (k, v) :: ps else p :: dictSet ps k v

def dictDel : List (String × α) → String → List (String × α)
  | [], _ => []
  | p :: ps, k => if p.1 = k then dictDel ps k else p :: dictDel ps k

/-! ## Python string helpers used by the source -/

/-- Python str.lower() on one character, for the ASCII range that the
source compares (case-insensitive names and the y answer). -/
def pyLowerChar (c : Char) : Char :=
  if 'A' ≤ c ∧ c ≤ 'Z' then Char.ofNat (c.toNat + 32) else c

/-- Python str.lower(). -/
def pyLower (s : String) : String := String.mk (s.data.map pyLowerChar)

/-- Python str.isspace() on one ASCII character: space, tab, newline,
carriage return, vertical tab, form feed. -/
def pySpace (c : Char) : Bool :=
  c = ' ' || c = Char.ofNat 9 || c = Char.ofNat 10 || c = Char.ofNat 13 ||
    c = Char.ofNat 11 || c = Char.ofNat 12

/-- Python str.strip(): drop whitespace from both ends. -/
def pyStrip (s : String) : String :=
  String.mk (((s.data.dropWhile pySpace).reverse.dropWhile pySpace).reverse)

/-- Python str.strip().lower() applied to a prompt response, as in
toolbox.py lines 68 and 202. -/
def pyStripLower (s : String) : String := pyLower (pyStrip s)

/-- Python str.split on the separator "." over a list of characters:
every occurrence of the dot splits, empty fragments are kept, and the
result is never empty (splitting the empty string gives one empty
fragment).  This mirrors the CPython semantics of url.split(".") used at
toolbox.py line 211. -/
def pySplitDot : List Char → List (List Char)
  | [] => [[]]
  | c :: cs =>
      let r := pySplitDot cs
      if c = '.' then [] :: r
      else
        match r with
        | [] => [[c]]
        | g :: gs => (c :: g) :: gs

/-- Python url.split(".")[-1] : the fragment after the last dot (the whole
string when there is no dot). -/
def lastSplitDot (s : String) : String := String.mk ((pySplitDot s.data).getLastD [])

/-! ## SHA-256 (hashlib.sha256), on Nat with reduction modulo 2^32

toolbox.py line 129 uses hashlib.sha256; the FIPS 180-4 algorithm is
embedded here.  A byte string is a List Nat of values below 256.  The
hashlib object is modelled by the accumulated byte string: update appends
bytes, hexdigest pads the accumulated message, compresses each 64-byte
block and prints the eight 32-bit words of the final state as 64 lowercase
hexadecimal characters.
-/

def w32 : Nat := 4294967296

def rotr32 (x n : Nat) : Nat := ((x >>> n) ||| (x <<< (32 - n))) % w32

def shaCh (e f g : Nat) : Nat := (e &&& f) ^^^ ((e ^^^ 4294967295) &&& g)

def shaMaj (a b c : Nat) : Nat := (a &&& b) ^^^ (a &&& c) ^^^ (b &&& c)

def bsig0 (a : Nat) : Nat := rotr32 a 2 ^^^ rotr32 a 13 ^^^ rotr32 a 22

def bsig1 (e : Nat) : Nat := rotr32 e 6 ^^^ rotr32 e 11 ^^^ rotr32 e 25

def ssig0 (x : Nat) : Nat := rotr32 x 7 ^^^ rotr32 x 18 ^^^ (x >>> 3)

def ssig1 (x : Nat) : Nat := rotr32 x 17 ^^^ rotr32 x 19 ^^^ (x >>> 10)

structure Hash8 where
  h0 : Nat
  h1 : Nat
  h2 : Nat
  h3 : Nat
  h4 : Nat
  h5 : Nat
  h6 : Nat
  h7 : Nat
deriving DecidableEq, Repr

/-- The eight initial state words of FIPS 180-4, written in decimal. -/
def shaH0 : Hash8 :=
  ⟨1779033703, 3144134277, 1013904242, 2773480762,
   1359893119, 2600822924, 528734635, 1541459225⟩

/-- The 64 round constants of FIPS 180-4, written in decimal. -/
def shaK : List Nat :=
  [1116352408, 1899447441, 3049323471, 3921009573, 961987163,
   1508970993, 2453635748, 2870763221, 3624381080, 310598401,
   607225278, 1426881987, 1925078388, 2162078206, 2614888103,
   3248222580, 3835390401, 4022224774, 264347078, 604807628,
   770255983, 1249150122, 1555081692, 1996064986, 2554220882,
   2821834349, 2952996808, 3210313671, 3336571891, 3584528711,
   113926993, 338241895, 666307205, 773529912, 1294757372,
   1396182291, 1695183700, 1986661051, 2177026350, 2456956037,
   2730485921, 2820302411, 3259730800, 3345764771, 3516065817,
   3600352804, 4094571909, 275423344, 430227734, 506948616,
   659060556, 883997877, 958139571, 1322822218, 1537002063,
   1747873779, 1955562222, 2024104815, 2227730452, 2361852424,
   2428436474, 2756734187, 3204031479, 3329325298]

def beBytes : Nat → Nat → List Nat
  | 0, _ => []
  | Nat.succ k, v => beBytes k (v / 256) ++ [v % 256]

def padMsg (m : List Nat) : List Nat :=
  m ++ [128] ++ List.replicate ((64 - ((m.length + 9) % 64)) % 64) 0 ++ beBytes 8 (m.length * 8)

def toWords : List Nat → List Nat
  | b0 :: b1 :: b2 :: b3 :: rest => (((b0 * 256 + b1) * 256 + b2) * 256 + b3) % w32 :: toWords rest
  | _ => []

def shaExtend : Nat → List Nat → List Nat
  | 0, ws => ws
  | Nat.succ n, ws =>
      shaExtend n (ws ++ [(ssig1 (ws.getD (ws.length - 2) 0) + ws.getD (ws.length - 7) 0 +
        ssig0 (ws.getD (ws.length - 15) 0) + ws.getD (ws.length - 16) 0) % w32])

def shaRound (st : Hash8) (kw : Nat × Nat) : Hash8 :=
  let t1 := (st.h7 + bsig1 st.h4 + shaCh st.h4 st.h5 st.h6 + kw.1 + kw.2) % w32
  let t2 := (bsig0 st.h0 + shaMaj st.h0 st.h1 st.h2) % w32
  ⟨(t1 + t2) % w32, st.h0, st.h1, st.h2, (st.h3 + t1) % w32, st.h4, st.h5, st.h6⟩

def shaCompress (h : Hash8) (block : List Nat) : Hash8 :=
  let ws := shaExtend 48 (toWords block)
  let f := (shaK.zip ws).foldl shaRound h
  ⟨(h.h0 + f.h0) % w32, (h.h1 + f.h1) % w32, (h.h2 + f.h2) % w32, (h.h3 + f.h3) % w32,
   (h.h4 + f.h4) % w32, (h.h5 + f.h5) % w32, (h.h6 + f.h6) % w32, (h.h7 + f.h7) % w32⟩

/-- Splits a list into consecutive chunks of n elements (the last chunk
may be shorter); the first argument is fuel bounding the recursion by the
length of the list. -/
def chunksByAux (n : Nat) : Nat → List α → List (List α)
  | 0, _ => []
  | _, [] => []
  | Nat.succ fuel, l => l.take n :: chunksByAux n fuel (l.drop n)

def chunksBy (n : Nat) (l : List α) : List (List α) := chunksByAux n l.length l

def hexChar (n : Nat) : Char := if n < 10 then Char.ofNat (48 + n) else Char.ofNat (87 + n)

def hexWordAux : Nat → Nat → List Char
  | 0, _ => []
  | Nat.succ k, v => hexWordAux k (v / 16) ++ [hexChar (v % 16)]

def hexWord (v : Nat) : List Char := hexWordAux 8 v

/-- hashlib.sha256(message).hexdigest() : the lowercase hexadecimal
encoding of the SHA-256 digest of the byte string. -/
def sha256hex (m : List Nat) : String :=
  let fin := (chunksBy 64 (padMsg m)).foldl shaCompress shaH0
  String.mk (hexWord fin.h0 ++ hexWord fin.h1 ++ hexWord fin.h2 ++ hexWord fin.h3 ++
             hexWord fin.h4 ++ hexWord fin.h5 ++ hexWord fin.h6 ++ hexWord fin.h7)

/-- toolbox.py lines 128-133, validate_checksum(file_path, expected_hash):
the file is read in 4096-byte chunks until an empty read; each chunk is
fed to the hash object (whose state is the accumulated byte string); the
final lowercase hexdigest is compared with the expected string by exact
Python string equality.  The argument is the full byte content of the
file at file_path. -/
def validate_checksum (content : List Nat) (expected_hash : String) : Bool :=
  let fed := (chunksBy 4096 content).foldl (fun acc b => acc ++ b) []
  sha256hex fed == expected_hash

/-! ## Data model

Catalog document (packages.json) and installation record file
(record.json), each either absent, present but not valid JSON, or parsed.
-/

inductive Parsed (α : Type) where
  | malformed : Parsed α
  | found : α → Parsed α
deriving DecidableEq, Repr

structure RecordEntry where
  version : String
  installed_on : String
deriving DecidableEq, Repr

/-- One package descriptor of the catalog document: name, version,
description, supported platform list, per-platform url and sha256 maps,
requirepath and shortcut flags (toolbox.py lines 115-121 and 195-231). -/
structure Package where
  name : String
  version : String
  description : String
  os : List String
  url : List (String × String)
  sha256 : List (String × String)
  requirepath : Bool
  shortcut : Bool
deriving DecidableEq, Repr

structure CatalogData where
  updateurl : Option String
  packages : List Package
deriving DecidableEq, Repr

abbrev RecMap := List (String × RecordEntry)

/-- The mutable outside world: the catalog file, the record file, the set
of existing directories and the regular files with their byte contents.
The catalog and record files are kept apart from the generic file list
because the source reads them only through json.load. -/
structure World where
  catalog : Option (Parsed CatalogData)
  record : Option (Parsed RecMap)
  dirs : List String
  files : List (String × List Nat)
deriving DecidableEq, Repr

/-- The ambient capabilities of one command invocation: the
platform-specific application-data base directory, platform.system(), the
outcome of fetching the package list (urlretrieve at toolbox.py line 88;
ok gives the parse of the file it writes), the network as a map from url
to fetched bytes or an error text, the confirmation prompt as a map from
package name to the raw response line, datetime.now().isoformat(), and
whether shutil.rmtree fails (some error text) or succeeds (none). -/
structure Env where
  appdata : String
  platform_name : String
  fetchCatalog : Except String (Parsed CatalogData)
  net : String → Except String (List Nat)
  confirm : String → String
  now : String
  rmtreeFail : Option String

/-- Observable side effects, in order of occurrence: a network download
from a url, a directory creation, a file write. -/
inductive Event where
  | fetch : String → Event
  | mkdirp : String → Event
  | writeFile : String → Event
deriving DecidableEq, Repr

/-- The error taxonomy: each constructor is one handle_error call site of
the source; handle_error prints the message and exits the process, so an
error aborts every enclosing loop.  catalogDownloadFailed is line 91,
catalogFileMissing line 233, packageNotFound line 197, unsupportedPlatform
line 200, integrityFailure line 219 (the checksum mismatch message),
installException line 235 (the generic except branch, carrying the Python
exception text), notInstalled line 66, uninstallException line 79. -/
inductive TbErr where
  | catalogDownloadFailed : String → TbErr
  | catalogFileMissing : TbErr
  | packageNotFound : String → TbErr
  | unsupportedPlatform : String → String → TbErr
  | integrityFailure : String → TbErr
  | installException : String → TbErr
  | notInstalled : String → TbErr
  | uninstallException : String → String → TbErr
deriving DecidableEq, Repr

/-- Result of one operation: normal return, the explicit cancellation
return after a negative confirmation (lines 70-71 and 204-205), or a
process-terminating error. -/
inductive Outcome where
  | ok : Outcome
  | cancelled : Outcome
  | err : TbErr → Outcome
deriving DecidableEq, Repr

/-! ## The operations of toolbox.py -/

def defaultPackagesURL : String :=
  "https://raw.githubusercontent.com/ravendevteam/toolbox/main/packages.json"

/-- toolbox.py lines 27-31, get_installation_path: the per-package
installation directory under the platform-specific application-data base,
derived from the caller-supplied package name. -/
def get_installation_path (env : Env) (package_name : String) : String :=
  env.appdata ++ "/ravendevteam/" ++ package_name

/-- toolbox.py lines 46-54, read_record: the record mapping, with a
missing or unparsable file read as the empty mapping. -/
def read_record : Option (Parsed RecMap) → RecMap
  | some (Parsed.found m) => m
  | _ => []

/-- toolbox.py lines 226-231 and 56-60: read the record, set the entry
for the package in place, write the whole mapping back (write_record). -/
def upsert_record (rf : Option (Parsed RecMap)) (name version timestamp : String) :
    Option (Parsed RecMap) :=
  some (Parsed.found (dictSet (read_record rf) name ⟨version, timestamp⟩))

/-- toolbox.py lines 81-91, ensure_packages_file: when the catalog file
is absent, download it from the hardcoded default url (a network access
and a file write); a download failure is a fatal error. -/
def ensure_packages_file (env : Env) (w : World) :
    Option TbErr × World × List Event :=
  match w.catalog with
  | some _ => (none, w, [])
  | none =>
      match env.fetchCatalog with
      | Except.ok p => (none, { w with catalog := some p }, [Event.fetch defaultPackagesURL])
      | Except.error e => (some (TbErr.catalogDownloadFailed e), w, [Event.fetch defaultPackagesURL])

/-- toolbox.py line 211: the artifact download path inside the
installation directory, named by the caller-supplied package name, a dot,
and the fragment of the url after its last dot. -/
def download_path (env : Env) (package_name url : String) : String :=
  get_installation_path env package_name ++ "/" ++ package_name ++ "." ++ lastSplitDot url

def insertDir (ds : List String) (p : String) : List String :=
  if p ∈ ds then ds else ds ++ [p]

/-- toolbox.py lines 198-231: the tail of install_package once the
descriptor has been resolved.  In source order: platform eligibility
check (199-200), confirmation prompt (201-205), per-platform url and
sha256 lookup (206-207, a missing key raises KeyError into the generic
except branch), directory creation (209-210), artifact download
(211-216, a failure raises into the generic except branch before the
destination file is written), checksum verification (218-219), and on
success the record upsert (220-231; the shortcut step of lines 222-225
only touches the desktop and swallows its own exceptions, so it changes
nothing modelled here; the exists check of line 220 is true because the
directory was just created). -/
def installResolved (env : Env) (name : String) (skip_confirmation : Bool)
    (pkg : Package) (w : World) : Outcome × World × List Event :=
  if env.platform_name ∉ pkg.os then
    (Outcome.err (TbErr.unsupportedPlatform name env.platform_name), w, [])
  else if skip_confirmation = false ∧ pyStripLower (env.confirm name) ≠ "y" then
    (Outcome.cancelled, w, [])
  else
    match lookupKey pkg.url env.platform_name with
    | none => (Outcome.err (TbErr.installException "KeyError"), w, [])
    | some url =>
        match lookupKey pkg.sha256 env.platform_name with
        | none => (Outcome.err (TbErr.installException "KeyError"), w, [])
        | some sha =>
            let ipath := get_installation_path env name
            let w1 : World := { w with dirs := insertDir w.dirs ipath }
            let dpath := download_path env name url
            match env.net url with
            | Except.error e =>
                (Outcome.err (TbErr.installException e), w1, [Event.mkdirp ipath, Event.fetch url])
            | Except.ok bytes =>
                let w2 : World := { w1 with files := dictSet w1.files dpath bytes }
                let evs := [Event.mkdirp ipath, Event.fetch url, Event.writeFile dpath]
                if validate_checksum bytes sha = false then
                  (Outcome.err (TbErr.integrityFailure name), w2, evs)
                else if ipath ∈ w2.dirs then
                  (Outcome.ok, { w2 with record := upsert_record w2.record name pkg.version env.now }, evs)
                else
                  (Outcome.ok, w2, evs)

/-- The two entry shapes of install_package: a single name, or the body
of the wildcard loop over the remaining descriptors. -/
inductive InstallCall where
  | single : String → Bool → InstallCall
  | loop : List Package → Bool → InstallCall

/-- toolbox.py lines 185-235, install_package.  The fuel bounds the
recursion (Python has a recursion limit of about 1000; the wildcard loop
also consumes one unit per descriptor, which only matters for absurdly
long catalogs).  A single call ensures the catalog file (187), loads it
(188-190; a missing file would be the FileNotFoundError branch of line
232, an unparsable one raises json.JSONDecodeError into the generic
except branch of line 234), then either iterates the wildcard loop over
every descriptor in catalog order (191-194, each iteration a full
recursive install_package call on the descriptor name), or resolves the
descriptor case-insensitively (195-197) and continues with
installResolved.  An error outcome aborts the wildcard loop because
handle_error exits the process; a cancelled iteration continues. -/
def installStep : Nat → InstallCall → Env → World → Outcome × World × List Event
  | 0, _, _, w => (Outcome.err (TbErr.installException "RecursionError"), w, [])
  | Nat.succ fuel, InstallCall.single name skip_confirmation, env, w =>
      match ensure_packages_file env w with
      | (some e, w1, tr) => (Outcome.err e, w1, tr)
      | (none, w1, tr) =>
          match w1.catalog with
          | none => (Outcome.err TbErr.catalogFileMissing, w1, tr)
          | some Parsed.malformed => (Outcome.err (TbErr.installException "JSONDecodeError"), w1, tr)
          | some (Parsed.found data) =>
              if name = "*" then
                match installStep fuel (InstallCall.loop data.packages skip_confirmation) env w1 with
                | (o, w2, tr2) => (o, w2, tr ++ tr2)
              else
                match data.packages.find? (fun p => pyLower p.name == pyLower name) with
                | none => (Outcome.err (TbErr.packageNotFound name), w1, tr)
                | some pkg =>
                    match installResolved env name skip_confirmation pkg w1 with
                    | (o, w2, tr2) => (o, w2, tr ++ tr2)
  | Nat.succ _, InstallCall.loop [] _, _, w => (Outcome.ok, w, [])
  | Nat.succ fuel, InstallCall.loop (p :: ps) skip_confirmation, env, w =>
      match installStep fuel (InstallCall.single p.name skip_confirmation) env w with
      | (Outcome.err e, w1, tr1) => (Outcome.err e, w1, tr1)
      | (_, w1, tr1) =>
          match installStep fuel (InstallCall.loop ps skip_confirmation) env w1 with
          | (o2, w2, tr2) => (o2, w2, tr1 ++ tr2)

def install_package (package_name : String) (skip_confirmation : Bool)
    (env : Env) (w : World) : Outcome × World × List Event :=
  installStep 1000 (InstallCall.single package_name skip_confirmation) env w

def strStarts (pre s : String) : Bool := pre.data.isPrefixOf s.data

/-- toolbox.py lines 62-79, uninstall_package: the installation path is
derived from the caller-supplied name (64); a missing directory is a
fatal error before anything else happens (65-66); a negative
confirmation is a clean cancel (67-71); shutil.rmtree removes the
directory and every file below it, and a removal error is fatal (72,
caught at 78-79) with nothing changed; after a successful removal the
record entry is deleted and the record written only when the entry
exists (74-77). -/
def uninstall_package (package_name : String) (skip_confirmation : Bool)
    (env : Env) (w : World) : Outcome × World :=
  let ipath := get_installation_path env package_name
  if ipath ∉ w.dirs then
    (Outcome.err (TbErr.notInstalled package_name), w)
  else if skip_confirmation = false ∧ pyStripLower (env.confirm package_name) ≠ "y" then
    (Outcome.cancelled, w)
  else
    match env.rmtreeFail with
    | some e => (Outcome.err (TbErr.uninstallException package_name e), w)
    | none =>
        let w1 : World := { w with dirs := w.dirs.erase ipath,
                                   files := w.files.filter (fun f => ! strStarts (ipath ++ "/") f.1) }
        let record := read_record w1.record
        if (lookupKey record package_name).isSome then
          (Outcome.ok, { w1 with record := some (Parsed.found (dictDel record package_name)) })
        else
          (Outcome.ok, w1)

/-- The catalog data that install_package sees after
ensure_packages_file: the cached file when present, otherwise the result
of the default-url fetch. -/
def effCatalog (env : Env) (w : World) : Option (Parsed CatalogData) :=
  match w.catalog with
  | some p => some p
  | none =>
      match env.fetchCatalog with
      | Except.ok p => some p
      | Except.error _ => none

/-! ## Helper lemmas -/

theorem lookupKey_dictSet_self (l : List (String × α)) (k : String) (v : α) :
    lookupKey (dictSet l k v) k = some v := by
  induction l with
  | nil => simp [dictSet, lookupKey]
  | cons p ps ih =>
      by_cases h : p.1 = k
      · simp [dictSet, h, lookupKey]
      · simp [dictSet, h, lookupKey, ih]

theorem lookupKey_dictSet_ne (l : List (String × α)) (k k' : String) (v : α)
    (h : k' ≠ k) : lookupKey (dictSet l k v) k' = lookupKey l k' := by
  induction l with
  | nil => simp [dictSet, lookupKey, Ne.symm h]
  | cons p ps ih =>
      by_cases hp : p.1 = k
      · subst hp
        simp [dictSet, lookupKey, Ne.symm h]
      · by_cases hp' : p.1 = k'
        · simp [dictSet, hp, lookupKey, hp', h]
        · simp [dictSet, hp, lookupKey, hp', ih]

theorem chunksFold (n : Nat) (hn : 1 ≤ n) :
    ∀ (fuel : Nat) (l acc : List α), l.length ≤ fuel →
      (chunksByAux n fuel l).foldl (fun a b => a ++ b) acc = acc ++ l := by
  intro fuel
  induction fuel with
  | zero =>
      intro l acc hl
      have : l = [] := List.length_eq_zero.mp (Nat.le_zero.mp hl)
      subst this
      simp [chunksByAux]
  | succ fuel ih =>
      intro l acc hl
      cases l with
      | nil => simp [chunksByAux]
      | cons c cs =>
          have hdrop : ((c :: cs).drop n).length ≤ fuel := by
            simp only [List.length_drop, List.length_cons]
            simp only [List.length_cons] at hl
            omega
          calc ((chunksByAux n (fuel + 1) (c :: cs)).foldl (fun a b => a ++ b) acc)
              = (chunksByAux n fuel ((c :: cs).drop n)).foldl (fun a b => a ++ b)
                  (acc ++ (c :: cs).take n) := by simp [chunksByAux]
            _ = (acc ++ (c :: cs).take n) ++ (c :: cs).drop n := ih _ _ hdrop
            _ = acc ++ (c :: cs) := by rw [List.append_assoc, List.take_append_drop]

/-- The streamed chunked feed of validate_checksum hashes exactly the
full file content. -/
theorem validate_checksum_eq (c : List Nat) (e : String) :
    validate_checksum c e = (sha256hex c == e) := by
  unfold validate_checksum chunksBy
  rw [chunksFold 4096 (by norm_num) c.length c [] le_rfl]
  rfl

def hexDigits : List Char := "0123456789abcdef".data

theorem hexChar_mem : ∀ n : Nat, n < 16 → hexChar n ∈ hexDigits := by decide

theorem hexWordAux_mem : ∀ (k v : Nat) (c : Char), c ∈ hexWordAux k v → c ∈ hexDigits := by
  intro k
  induction k with
  | zero => intro v c hc; simp [hexWordAux] at hc
  | succ k ih =>
      intro v c hc
      simp only [hexWordAux, List.mem_append, List.mem_singleton] at hc
      rcases hc with hc | hc
      · exact ih _ _ hc
      · subst hc
        exact hexChar_mem _ (Nat.mod_lt _ (by norm_num))

/-- Every character of a hexdigest is a lowercase hexadecimal digit. -/
theorem sha256hex_chars (m : List Nat) (c : Char) (hc : c ∈ (sha256hex m).data) :
    c ∈ hexDigits := by
  unfold sha256hex at hc
  simp only [String.data] at hc
  simp only [List.mem_append] at hc
  rcases hc with ((((((h | h) | h) | h) | h) | h) | h) | h <;>
    exact hexWordAux_mem _ _ _ h

theorem strAppendCancel (a b c : String) (h : a ++ b = a ++ c) : b = c := by
  have hd : a.data ++ b.data = a.data ++ c.data := by
    have h2 := congrArg String.data h
    cases a with
    | mk da =>
        cases b with
        | mk db =>
            cases c with
            | mk dc => exact h2
  have h3 := List.append_cancel_left hd
  cases b with
  | mk db =>
      cases c with
      | mk dc => exact congrArg String.mk h3

theorem get_installation_path_inj (env : Env) (n₁ n₂ : String)
    (h : get_installation_path env n₁ = get_installation_path env n₂) : n₁ = n₂ :=
  strAppendCancel _ _ _ h

theorem insertDir_mem (ds : List String) (p : String) : p ∈ insertDir ds p := by
  unfold insertDir
  split
  · assumption
  · simp

theorem pySplitDot_ne_nil : ∀ l : List Char, pySplitDot l ≠ [] := by
  intro l
  cases l with
  | nil => simp [pySplitDot]
  | cons c cs =>
      simp only [pySplitDot]
      split
      · simp
      · split
        · simp
        · simp

/-- A string with no dot is not split: the single fragment is the whole
string. -/
theorem pySplitDot_noDot : ∀ l : List Char, '.' ∉ l → pySplitDot l = [l] := by
  intro l
  induction l with
  | nil => intro _; rfl
  | cons c cs ih =>
      intro h
      have hc : c ≠ '.' := fun e => h (by simp [e])
      have hcs : '.' ∉ cs := fun e => h (by simp [e])
      simp only [pySplitDot, if_neg hc, ih hcs]

theorem pySplitDot_two (l : List Char) (h : '.' ∈ l) : 2 ≤ (pySplitDot l).length := by
  induction l with
  | nil => simp at h
  | cons c cs ih =>
      by_cases hc : c = '.'
      · have h1 : 1 ≤ (pySplitDot cs).length :=
          List.length_pos.mpr (pySplitDot_ne_nil cs)
        simp only [pySplitDot, if_pos hc, List.length_cons]
        omega
      · have hcs : '.' ∈ cs := by
          rcases List.mem_cons.mp h with h | h
          · exact absurd h.symm hc
          · exact h
        have h2 := ih hcs
        simp only [pySplitDot, if_neg hc]
        rcases hr : pySplitDot cs with _ | ⟨g, gs⟩
        · exact absurd hr (pySplitDot_ne_nil cs)
        · rw [hr] at h2
          simpa using h2

/-- A string ending in a dot splits with an empty last fragment. -/
theorem pySplitDot_trailing : ∀ l : List Char, (pySplitDot (l ++ ['.'])).getLastD [] = [] := by
  intro l
  induction l with
  | nil => rfl
  | cons c cs ih =>
      by_cases hc : c = '.'
      · subst hc
        simp only [List.cons_append, pySplitDot, if_pos rfl]
        rcases hr : pySplitDot (cs ++ ['.']) with _ | ⟨g, gs⟩
        · exact absurd hr (pySplitDot_ne_nil _)
        · rw [hr] at ih
          simpa [List.getLastD_cons] using ih
      · have hmem : '.' ∈ cs ++ ['.'] := by simp
        have h2 := pySplitDot_two _ hmem
        simp only [List.cons_append, pySplitDot, if_neg hc]
        rcases hr : pySplitDot (cs ++ ['.']) with _ | ⟨g, gs⟩
        · exact absurd hr (pySplitDot_ne_nil _)
        · rw [hr] at ih h2
          cases gs with
          | nil => simp at h2
          | cons g2 gs2 => simpa [List.getLastD_cons] using ih

theorem ensure_record (env : Env) (w : World) :
    (ensure_packages_file env w).2.1.record = w.record := by
  unfold ensure_packages_file
  cases w.catalog with
  | some p => rfl
  | none =>
      cases env.fetchCatalog with
      | ok p => rfl
      | error e => rfl

theorem ensure_dirs (env : Env) (w : World) :
    (ensure_packages_file env w).2.1.dirs = w.dirs := by
  unfold ensure_packages_file
  cases w.catalog with
  | some p => rfl
  | none =>
      cases env.fetchCatalog with
      | ok p => rfl
      | error e => rfl

theorem ensure_files (env : Env) (w : World) :
    (ensure_packages_file env w).2.1.files = w.files := by
  unfold ensure_packages_file
  cases w.catalog with
  | some p => rfl
  | none =>
      cases env.fetchCatalog with
      | ok p => rfl
      | error e => rfl

theorem ensure_tr (env : Env) (w : World) :
    ∀ e ∈ (ensure_packages_file env w).2.2, e = Event.fetch defaultPackagesURL := by
  unfold ensure_packages_file
  cases w.catalog with
  | some p => simp
  | none =>
      cases env.fetchCatalog with
      | ok p => simp
      | error e => simp

theorem ensure_of_cached (env : Env) (w : World) (p : Parsed CatalogData)
    (h : w.catalog = some p) : ensure_packages_file env w = (none, w, []) := by
  unfold ensure_packages_file
  rw [h]

theorem ensure_catalog (env : Env) (w : World) (p : Parsed CatalogData)
    (hcat : effCatalog env w = some p) :
    (ensure_packages_file env w).1 = none ∧ (ensure_packages_file env w).2.1.catalog = some p := by
  cases hw : w.catalog with
  | some q =>
      have hq : q = p := by simpa [effCatalog, hw] using hcat
      subst hq
      rw [ensure_of_cached env w q hw]
      exact ⟨rfl, hw⟩
  | none =>
      cases hf : env.fetchCatalog with
      | ok q =>
          have hq : q = p := by simpa [effCatalog, hw, hf] using hcat
          subst hq
          unfold ensure_packages_file
          rw [hw, hf]
          exact ⟨rfl, rfl⟩
      | error e =>
          exfalso
          simp [effCatalog, hw, hf] at hcat

theorem installResolved_unsupported (env : Env) (name : String) (skip : Bool)
    (pkg : Package) (w : World) (hos : env.platform_name ∉ pkg.os) :
    installResolved env name skip pkg w =
      (Outcome.err (TbErr.unsupportedPlatform name env.platform_name), w, []) := by
  unfold installResolved
  rw [if_pos hos]

theorem installResolved_cancel (env : Env) (name : String) (pkg : Package) (w : World)
    (hos : env.platform_name ∈ pkg.os)
    (hresp : pyStripLower (env.confirm name) ≠ "y") :
    installResolved env name false pkg w = (Outcome.cancelled, w, []) := by
  unfold installResolved
  rw [if_neg (not_not_intro hos), if_pos ⟨rfl, hresp⟩]

theorem installResolved_mismatch (env : Env) (name : String) (skip : Bool) (pkg : Package)
    (w : World) (url sha : String) (bytes : List Nat)
    (hos : env.platform_name ∈ pkg.os)
    (hconf : skip = true ∨ pyStripLower (env.confirm name) = "y")
    (hurl : lookupKey pkg.url env.platform_name = some url)
    (hsha : lookupKey pkg.sha256 env.platform_name = some sha)
    (hnet : env.net url = Except.ok bytes)
    (hbad : sha256hex bytes ≠ sha) :
    installResolved env name skip pkg w =
      (Outcome.err (TbErr.integrityFailure name),
       { w with dirs := insertDir w.dirs (get_installation_path env name),
                files := dictSet w.files (download_path env name url) bytes },
       [Event.mkdirp (get_installation_path env name), Event.fetch url,
        Event.writeFile (download_path env name url)]) := by
  have hc : ¬(skip = false ∧ pyStripLower (env.confirm name) ≠ "y") := by
    rcases hconf with h | h
    · rw [h]; simp
    · intro hh; exact hh.2 h
  have hv : validate_checksum bytes sha = false := by
    rw [validate_checksum_eq]
    exact beq_eq_false_iff_ne.mpr hbad
  unfold installResolved
  rw [if_neg (not_not_intro hos), if_neg hc, hurl, hsha]
  simp [hnet, hv]

theorem installResolved_success (env : Env) (name : String) (skip : Bool) (pkg : Package)
    (w : World) (url sha : String) (bytes : List Nat)
    (hos : env.platform_name ∈ pkg.os)
    (hconf : skip = true ∨ pyStripLower (env.confirm name) = "y")
    (hurl : lookupKey pkg.url env.platform_name = some url)
    (hsha : lookupKey pkg.sha256 env.platform_name = some sha)
    (hnet : env.net url = Except.ok bytes)
    (hgood : sha256hex bytes = sha) :
    installResolved env name skip pkg w =
      (Outcome.ok,
       { w with dirs := insertDir w.dirs (get_installation_path env name),
                files := dictSet w.files (download_path env name url) bytes,
                record := upsert_record w.record name pkg.version env.now },
       [Event.mkdirp (get_installation_path env name), Event.fetch url,
        Event.writeFile (download_path env name url)]) := by
  have hc : ¬(skip = false ∧ pyStripLower (env.confirm name) ≠ "y") := by
    rcases hconf with h | h
    · rw [h]; simp
    · intro hh; exact hh.2 h
  have hv : validate_checksum bytes sha = true := by
    rw [validate_checksum_eq]
    exact beq_iff_eq.mpr hgood
  unfold installResolved
  rw [if_neg (not_not_intro hos), if_neg hc, hurl, hsha]
  simp [hnet, hv, insertDir_mem]

theorem installStep_single_eq (fuel : Nat) (name : String) (skip : Bool) (env : Env)
    (w : World) (d : CatalogData)
    (hname : name ≠ "*")
    (hcat : effCatalog env w = some (Parsed.found d)) :
    installStep (fuel + 1) (InstallCall.single name skip) env w =
      match d.packages.find? (fun p => pyLower p.name == pyLower name) with
      | none =>
          (Outcome.err (TbErr.packageNotFound name),
           (ensure_packages_file env w).2.1, (ensure_packages_file env w).2.2)
      | some pkg =>
          ((installResolved env name skip pkg (ensure_packages_file env w).2.1).1,
           (installResolved env name skip pkg (ensure_packages_file env w).2.1).2.1,
           (ensure_packages_file env w).2.2 ++
             (installResolved env name skip pkg (ensure_packages_file env w).2.1).2.2) := by
  have hens := ensure_catalog env w _ hcat
  rcases he : ensure_packages_file env w with ⟨e, w1, tr⟩
  rw [he] at hens
  obtain ⟨h1, h2⟩ := hens
  subst h1
  replace h2 : w1.catalog = some (Parsed.found d) := h2
  cases hf : d.packages.find? (fun p => pyLower p.name == pyLower name) with
  | none => simp [installStep, he, h2, if_neg hname, hf]
  | some pkg =>
      rcases hr : installResolved env name skip pkg w1 with ⟨o, w2, tr2⟩
      simp [installStep, he, h2, if_neg hname, hf, hr]

/-! ## Claims -/

set_option maxRecDepth 100000

/-- C6: validate_checksum returns true iff the lowercase hexadecimal
SHA-256 digest of the full byte content of the file, computed by
streaming fixed-size chunks, is exactly string-equal to the expected
digest string; every digest character is a lowercase hexadecimal digit,
and any expected string different from the digest, in particular one
differing only in letter case, yields false. -/
theorem c6_digest_exact (content : List Nat) (expected : String) :
    (validate_checksum content expected = true ↔ sha256hex content = expected)
    ∧ (∀ c ∈ (sha256hex content).data, c ∈ hexDigits)
    ∧ (expected ≠ sha256hex content → validate_checksum content expected = false) := by
  refine ⟨?_, fun c hc => sha256hex_chars content c hc, ?_⟩
  · rw [validate_checksum_eq]
    exact beq_iff_eq
  · intro hne
    rw [validate_checksum_eq]
    exact beq_eq_false_iff_ne.mpr (Ne.symm hne)

theorem c6_digest_exact_witness :
    validate_checksum []
      "E3B0C44298FC1C149AFBF4C8996FB92427AE41E4649B934CA495991B7852B855" = false :=
  (c6_digest_exact [] "E3B0C44298FC1C149AFBF4C8996FB92427AE41E4649B934CA495991B7852B855").2.2
    (by decide)

/-- C7: upserting (name, v, t) into any prior record-store state and
loading it back gives a mapping whose entry for name is exactly the pair
of v and t, and whose entry for every other key is unchanged. -/
theorem c7_upsert_roundtrip (rf : Option (Parsed RecMap)) (name v t : String) :
    lookupKey (read_record (upsert_record rf name v t)) name = some ⟨v, t⟩
    ∧ ∀ k, k ≠ name →
        lookupKey (read_record (upsert_record rf name v t)) k
          = lookupKey (read_record rf) k := by
  constructor
  · exact lookupKey_dictSet_self (read_record rf) name ⟨v, t⟩
  · intro k hk
    exact lookupKey_dictSet_ne (read_record rf) name k ⟨v, t⟩ hk

theorem c7_upsert_roundtrip_witness :
    lookupKey (read_record (upsert_record (some (Parsed.found [("a", ⟨"1", "t1"⟩)])) "b" "2" "t2")) "b"
        = some ⟨"2", "t2"⟩
    ∧ lookupKey (read_record (upsert_record (some (Parsed.found [("a", ⟨"1", "t1"⟩)])) "b" "2" "t2")) "a"
        = lookupKey (read_record (some (Parsed.found [("a", ⟨"1", "t1"⟩)]))) "a" :=
  ⟨(c7_upsert_roundtrip (some (Parsed.found [("a", ⟨"1", "t1"⟩)])) "b" "2" "t2").1,
   (c7_upsert_roundtrip (some (Parsed.found [("a", ⟨"1", "t1"⟩)])) "b" "2" "t2").2 "a" (by decide)⟩

/-- C4: when the installation directory exists, the confirmation passes,
and the recursive removal raises, uninstall aborts with the uninstall
error and the whole world, in particular the record file, is unchanged. -/
theorem c4_uninstall_failed_preserves (name : String) (skip : Bool) (env : Env)
    (w : World) (e : String)
    (hdir : get_installation_path env name ∈ w.dirs)
    (hconf : skip = true ∨ pyStripLower (env.confirm name) = "y")
    (hrm : env.rmtreeFail = some e) :
    uninstall_package name skip env w = (Outcome.err (TbErr.uninstallException name e), w) := by
  have hc : ¬(skip = false ∧ pyStripLower (env.confirm name) ≠ "y") := by
    rcases hconf with h | h
    · rw [h]; simp
    · intro hh; exact hh.2 h
  simp [uninstall_package, hdir, hc, hrm]

def envC4 : Env :=
  { appdata := "A", platform_name := "Windows", fetchCatalog := Except.error "off",
    net := fun _ => Except.error "off", confirm := fun _ => "y", now := "T",
    rmtreeFail := some "Permission denied" }

def wldC4 : World :=
  { catalog := none, record := some (Parsed.found [("foo", ⟨"1.0", "T0"⟩)]),
    dirs := ["A/ravendevteam/foo"], files := [] }

theorem c4_uninstall_failed_preserves_witness :
    uninstall_package "foo" false envC4 wldC4
      = (Outcome.err (TbErr.uninstallException "foo" "Permission denied"), wldC4) :=
  c4_uninstall_failed_preserves "foo" false envC4 wldC4 "Permission denied"
    (by decide) (Or.inr (by decide)) rfl

/-- C5: when the installation directory is absent, uninstall fails with
the not-installed error and changes nothing, whether or not a record
entry exists, so a repeated uninstall fails the same way; and on the
successful-removal path a missing record entry is not an error: the
result is a normal return and the record file is not written. -/
theorem c5_not_installed (name : String) (skip : Bool) (env : Env) (w : World) :
    (get_installation_path env name ∉ w.dirs →
      uninstall_package name skip env w = (Outcome.err (TbErr.notInstalled name), w)
      ∧ uninstall_package name skip env (uninstall_package name skip env w).2
          = (Outcome.err (TbErr.notInstalled name), w))
    ∧ (get_installation_path env name ∈ w.dirs →
       (skip = true ∨ pyStripLower (env.confirm name) = "y") →
       env.rmtreeFail = none →
       lookupKey (read_record w.record) name = none →
       (uninstall_package name skip env w).1 = Outcome.ok
       ∧ (uninstall_package name skip env w).2.record = w.record) := by
  constructor
  · intro hdir
    have h1 : uninstall_package name skip env w = (Outcome.err (TbErr.notInstalled name), w) := by
      simp [uninstall_package, hdir]
    refine ⟨h1, ?_⟩
    rw [h1]
    exact h1
  · intro hdir hconf hrm hlook
    have hc : ¬(skip = false ∧ pyStripLower (env.confirm name) ≠ "y") := by
      rcases hconf with h | h
      · rw [h]; simp
      · intro hh; exact hh.2 h
    simp [uninstall_package, hdir, hc, hrm, hlook]

def envC5 : Env :=
  { appdata := "A", platform_name := "Windows", fetchCatalog := Except.error "off",
    net := fun _ => Except.error "off", confirm := fun _ => "n", now := "T",
    rmtreeFail := none }

def wldC5 : World :=
  { catalog := none, record := some (Parsed.found [("foo", ⟨"1.0", "T0"⟩)]),
    dirs := ["A/ravendevteam/bar"], files := [] }

theorem c5_not_installed_witness :
    (uninstall_package "foo" true envC5 wldC5 = (Outcome.err (TbErr.notInstalled "foo"), wldC5)
      ∧ uninstall_package "foo" true envC5 (uninstall_package "foo" true envC5 wldC5).2
          = (Outcome.err (TbErr.notInstalled "foo"), wldC5))
    ∧ ((uninstall_package "bar" true envC5 wldC5).1 = Outcome.ok
        ∧ (uninstall_package "bar" true envC5 wldC5).2.record = wldC5.record) :=
  ⟨(c5_not_installed "foo" true envC5 wldC5).1 (by decide),
   (c5_not_installed "bar" true envC5 wldC5).2 (by decide) (Or.inl rfl) rfl (by decide)⟩

/-- C1: when the downloaded artifact digest differs from the expected
digest, install aborts with the integrity failure, the record file is
untouched, and the downloaded artifact is still present at the download
path. -/
theorem c1_integrity_no_record (name : String) (skip : Bool) (env : Env) (w : World)
    (d : CatalogData) (pkg : Package) (url sha : String) (bytes : List Nat)
    (hname : name ≠ "*")
    (hcat : effCatalog env w = some (Parsed.found d))
    (hfind : d.packages.find? (fun q => pyLower q.name == pyLower name) = some pkg)
    (hos : env.platform_name ∈ pkg.os)
    (hconf : skip = true ∨ pyStripLower (env.confirm name) = "y")
    (hurl : lookupKey pkg.url env.platform_name = some url)
    (hsha : lookupKey pkg.sha256 env.platform_name = some sha)
    (hnet : env.net url = Except.ok bytes)
    (hbad : sha256hex bytes ≠ sha) :
    (install_package name skip env w).1 = Outcome.err (TbErr.integrityFailure name)
    ∧ (install_package name skip env w).2.1.record = w.record
    ∧ lookupKey (install_package name skip env w).2.1.files (download_path env name url)
        = some bytes := by
  have heq := installStep_single_eq 999 name skip env w d hname hcat
  simp only [hfind] at heq
  rw [installResolved_mismatch env name skip pkg _ url sha bytes hos hconf hurl hsha hnet hbad] at heq
  unfold install_package
  rw [show (1000 : Nat) = 999 + 1 from rfl, heq]
  refine ⟨rfl, ?_, ?_⟩
  · exact ensure_record env w
  · exact lookupKey_dictSet_self _ _ _

def pkgFoo : Package :=
  { name := "foo", version := "1.0", description := "demo",
    os := ["Windows"], url := [("Windows", "http://h/a.zip")],
    sha256 := [("Windows", "deadbeef")], requirepath := false, shortcut := false }

def envC1 : Env :=
  { appdata := "A", platform_name := "Windows",
    fetchCatalog := Except.error "off",
    net := fun _ => Except.ok [1, 2], confirm := fun _ => "y", now := "T",
    rmtreeFail := none }

def wldC1 : World :=
  { catalog := some (Parsed.found { updateurl := none, packages := [pkgFoo] }),
    record := none, dirs := [], files := [] }

theorem c1_integrity_no_record_witness :
    (install_package "foo" true envC1 wldC1).1 = Outcome.err (TbErr.integrityFailure "foo")
    ∧ (install_package "foo" true envC1 wldC1).2.1.record = wldC1.record
    ∧ lookupKey (install_package "foo" true envC1 wldC1).2.1.files
        (download_path envC1 "foo" "http://h/a.zip") = some [1, 2] :=
  c1_integrity_no_record "foo" true envC1 wldC1
    { updateurl := none, packages := [pkgFoo] } pkgFoo "http://h/a.zip" "deadbeef" [1, 2]
    (by decide) rfl rfl (by decide) (Or.inl rfl) rfl rfl rfl (by decide)

/-- C2 (amended): when the resolved descriptor does not support the
current platform, install fails with the unsupported-platform error, the
record, directories and files are unchanged, every event of the run is
the catalog-list fetch, and when the catalog file was already cached
there is no event at all, in particular no network access, before the
failure. -/
theorem c2_unsupported_before (name : String) (skip : Bool) (env : Env) (w : World)
    (d : CatalogData) (pkg : Package)
    (hname : name ≠ "*")
    (hcat : effCatalog env w = some (Parsed.found d))
    (hfind : d.packages.find? (fun q => pyLower q.name == pyLower name) = some pkg)
    (hos : env.platform_name ∉ pkg.os) :
    (install_package name skip env w).1
        = Outcome.err (TbErr.unsupportedPlatform name env.platform_name)
    ∧ (install_package name skip env w).2.1.record = w.record
    ∧ (install_package name skip env w).2.1.dirs = w.dirs
    ∧ (install_package name skip env w).2.1.files = w.files
    ∧ (∀ e ∈ (install_package name skip env w).2.2, e = Event.fetch defaultPackagesURL)
    ∧ (∀ p, w.catalog = some p → (install_package name skip env w).2.2 = []) := by
  have heq := installStep_single_eq 999 name skip env w d hname hcat
  simp only [hfind] at heq
  rw [installResolved_unsupported env name skip pkg _ hos] at heq
  unfold install_package
  rw [show (1000 : Nat) = 999 + 1 from rfl, heq]
  refine ⟨rfl, ensure_record env w, ensure_dirs env w, ensure_files env w, ?_, ?_⟩
  · intro e he
    apply ensure_tr env w
    simpa using he
  · intro p hp
    show (ensure_packages_file env w).2.2 ++ [] = []
    rw [ensure_of_cached env w p hp]
    rfl

def pkgBar : Package :=
  { name := "bar", version := "1.0", description := "demo",
    os := ["Linux"], url := [("Linux", "http://h/c.zip")],
    sha256 := [("Linux", "x")], requirepath := false, shortcut := false }

def envC2 : Env :=
  { appdata := "A", platform_name := "Windows",
    fetchCatalog := Except.ok (Parsed.found { updateurl := none, packages := [pkgBar] }),
    net := fun _ => Except.error "unused", confirm := fun _ => "y", now := "T",
    rmtreeFail := none }

def wldC2 : World := { catalog := none, record := none, dirs := [], files := [] }

def wldC2b : World :=
  { catalog := some (Parsed.found { updateurl := none, packages := [pkgBar] }),
    record := none, dirs := [], files := [] }

/-- C2 counterexample: with the catalog file absent, installing a package
that does not support the current platform first downloads the catalog
from the network (a fetch event occurs during the run, hence before the
process-terminating failure), refuting the claim that no bytes are
fetched from any URL before the UnsupportedPlatform failure. -/
theorem c2_unsupported_before_cx :
    (install_package "bar" true envC2 wldC2).1
        = Outcome.err (TbErr.unsupportedPlatform "bar" "Windows")
    ∧ (install_package "bar" true envC2 wldC2).2.2 = [Event.fetch defaultPackagesURL] := by
  constructor
  · decide
  · decide

theorem c2_unsupported_before_witness :
    (install_package "bar" true envC2 wldC2b).1
        = Outcome.err (TbErr.unsupportedPlatform "bar" "Windows")
    ∧ (install_package "bar" true envC2 wldC2b).2.2 = [] :=
  ⟨(c2_unsupported_before "bar" true envC2 wldC2b
      { updateurl := none, packages := [pkgBar] } pkgBar
      (by decide) rfl rfl (by decide)).1,
   (c2_unsupported_before "bar" true envC2 wldC2b
      { updateurl := none, packages := [pkgBar] } pkgBar
      (by decide) rfl rfl (by decide)).2.2.2.2.2
     (Parsed.found { updateurl := none, packages := [pkgBar] }) rfl⟩

/-- C3 (amended): with the catalog file already cached, a single-package
install whose prompt response does not strip-and-lowercase to y is a
clean cancel and not an error: the outcome is the cancellation return,
the world, in particular the record file, the directories and the files,
is exactly unchanged, and no event, in particular no download, occurs. -/
theorem c3_cancel_clean (name : String) (env : Env) (w : World) (d : CatalogData)
    (p : Parsed CatalogData) (pkg : Package)
    (hname : name ≠ "*")
    (hcached : w.catalog = some p)
    (hcat : effCatalog env w = some (Parsed.found d))
    (hfind : d.packages.find? (fun q => pyLower q.name == pyLower name) = some pkg)
    (hos : env.platform_name ∈ pkg.os)
    (hresp : pyStripLower (env.confirm name) ≠ "y") :
    install_package name false env w = (Outcome.cancelled, w, []) := by
  have heq := installStep_single_eq 999 name false env w d hname hcat
  simp only [hfind] at heq
  simp only [ensure_of_cached env w p hcached] at heq
  rw [installResolved_cancel env name pkg w hos hresp] at heq
  unfold install_package
  rw [show (1000 : Nat) = 999 + 1 from rfl, heq]
  rfl

def pkgBaz : Package :=
  { name := "baz", version := "1.0", description := "demo",
    os := ["Windows"], url := [("Windows", "http://h/b.zip")],
    sha256 := [("Windows", sha256hex [7])], requirepath := false, shortcut := false }

def envC3 : Env :=
  { appdata := "A", platform_name := "Windows",
    fetchCatalog := Except.error "off", net := fun _ => Except.ok [7],
    confirm := fun _ => " y", now := "T", rmtreeFail := none }

def wldC3 : World :=
  { catalog := some (Parsed.found { updateurl := none, packages := [pkgBaz] }),
    record := none, dirs := [], files := [] }

def envC3b : Env :=
  { envC3 with confirm := fun _ => "n",
               fetchCatalog := Except.ok (Parsed.found { updateurl := none, packages := [pkgBaz] }) }

def wldC3b : World := { wldC3 with catalog := none }

def envC3w : Env := { envC3 with confirm := fun _ => "n" }

theorem c3_cancel_clean_witness :
    install_package "baz" false envC3w wldC3 = (Outcome.cancelled, wldC3, []) :=
  c3_cancel_clean "baz" envC3w wldC3 { updateurl := none, packages := [pkgBaz] }
    (Parsed.found { updateurl := none, packages := [pkgBaz] }) pkgBaz
    (by decide) rfl rfl rfl (by decide) (by decide)

/-- C3 counterexample: the response given as a space followed by y is not
y and not Y, yet the install proceeds and creates a record entry (the
source strips and lowercases the response before comparing); and with the
catalog file absent, even a cancelled install has already downloaded a
file, the catalog list, before the prompt. -/
theorem c3_cancel_clean_cx :
    ((" y" : String) ≠ "y" ∧ (" y" : String) ≠ "Y"
      ∧ (install_package "baz" false envC3 wldC3).1 = Outcome.ok
      ∧ lookupKey (read_record (install_package "baz" false envC3 wldC3).2.1.record) "baz"
          = some ⟨"1.0", "T"⟩)
    ∧ ((install_package "baz" false envC3b wldC3b).1 = Outcome.cancelled
      ∧ (install_package "baz" false envC3b wldC3b).2.2 = [Event.fetch defaultPackagesURL]) := by
  exact ⟨⟨by decide, by decide, by decide, by decide⟩, by decide, by decide⟩

/-- C9: a successful install keys both the installation directory and the
record entry by the caller-supplied name string, not by the canonical
descriptor name: the record entry appears under the caller-supplied name,
every other name, in particular the canonical one when the casing
differs, keeps its previous record entry, and the installation path of
any other name is a different path, so a later uninstall under the
canonical casing targets a different directory and record key. -/
theorem c9_caller_supplied_name (name : String) (skip : Bool) (env : Env) (w : World)
    (d : CatalogData) (pkg : Package) (url sha : String) (bytes : List Nat)
    (hname : name ≠ "*")
    (hcat : effCatalog env w = some (Parsed.found d))
    (hfind : d.packages.find? (fun q => pyLower q.name == pyLower name) = some pkg)
    (hos : env.platform_name ∈ pkg.os)
    (hconf : skip = true ∨ pyStripLower (env.confirm name) = "y")
    (hurl : lookupKey pkg.url env.platform_name = some url)
    (hsha : lookupKey pkg.sha256 env.platform_name = some sha)
    (hnet : env.net url = Except.ok bytes)
    (hgood : sha256hex bytes = sha) :
    (install_package name skip env w).1 = Outcome.ok
    ∧ lookupKey (read_record (install_package name skip env w).2.1.record) name
        = some ⟨pkg.version, env.now⟩
    ∧ get_installation_path env name ∈ (install_package name skip env w).2.1.dirs
    ∧ (∀ other, other ≠ name →
        lookupKey (read_record (install_package name skip env w).2.1.record) other
          = lookupKey (read_record w.record) other)
    ∧ (∀ other, other ≠ name →
        get_installation_path env other ≠ get_installation_path env name) := by
  have heq := installStep_single_eq 999 name skip env w d hname hcat
  simp only [hfind] at heq
  rw [installResolved_success env name skip pkg _ url sha bytes hos hconf hurl hsha hnet hgood] at heq
  unfold install_package
  rw [show (1000 : Nat) = 999 + 1 from rfl, heq]
  have hrec : (upsert_record (ensure_packages_file env w).2.1.record name pkg.version env.now)
      = upsert_record w.record name pkg.version env.now := by
    rw [ensure_record]
  refine ⟨rfl, ?_, ?_, ?_, ?_⟩
  · show lookupKey (read_record (upsert_record (ensure_packages_file env w).2.1.record
        name pkg.version env.now)) name = some ⟨pkg.version, env.now⟩
    rw [hrec]
    exact lookupKey_dictSet_self _ _ _
  · exact insertDir_mem _ _
  · intro other hne
    show lookupKey (read_record (upsert_record (ensure_packages_file env w).2.1.record
        name pkg.version env.now)) other = _
    rw [hrec]
    exact lookupKey_dictSet_ne _ _ _ _ hne
  · intro other hne hpath
    exact hne (get_installation_path_inj env other name hpath)

def envC9 : Env :=
  { appdata := "A", platform_name := "Windows",
    fetchCatalog := Except.error "off", net := fun _ => Except.ok [7],
    confirm := fun _ => "y", now := "T", rmtreeFail := none }

def pkgLowerFoo : Package :=
  { name := "foo", version := "1.0", description := "demo",
    os := ["Windows"], url := [("Windows", "http://h/b.zip")],
    sha256 := [("Windows", sha256hex [7])], requirepath := false, shortcut := false }

def wldC9 : World :=
  { catalog := some (Parsed.found { updateurl := none, packages := [pkgLowerFoo] }),
    record := some (Parsed.found [("foo", ⟨"0.9", "T0"⟩)]), dirs := [], files := [] }

theorem c9_caller_supplied_name_witness :
    (install_package "Foo" true envC9 wldC9).1 = Outcome.ok
    ∧ lookupKey (read_record (install_package "Foo" true envC9 wldC9).2.1.record) "Foo"
        = some ⟨"1.0", "T"⟩
    ∧ get_installation_path envC9 "Foo" ∈ (install_package "Foo" true envC9 wldC9).2.1.dirs
    ∧ lookupKey (read_record (install_package "Foo" true envC9 wldC9).2.1.record) "foo"
        = lookupKey (read_record wldC9.record) "foo"
    ∧ get_installation_path envC9 "foo" ≠ get_installation_path envC9 "Foo" := by
  have h := c9_caller_supplied_name "Foo" true envC9 wldC9
    { updateurl := none, packages := [pkgLowerFoo] } pkgLowerFoo "http://h/b.zip"
    (sha256hex [7]) [7]
    (by decide) rfl rfl (by decide) (Or.inl rfl) rfl rfl rfl rfl
  exact ⟨h.1, h.2.1, h.2.2.1, h.2.2.2.1 "foo" (by decide), h.2.2.2.2 "foo" (by decide)⟩

/-- C10: on any install run that reaches a successful artifact download,
the artifact bytes are stored at the download path, which lies inside the
installation directory and is named by the package name, a dot, and the
fragment of the url after its last dot; a url with no dot contributes the
whole url as the extension, and a url ending in a dot contributes the
empty extension. -/
theorem c10_download_extension :
    (∀ (name : String) (skip : Bool) (env : Env) (w : World) (d : CatalogData)
        (pkg : Package) (url sha : String) (bytes : List Nat),
        name ≠ "*" →
        effCatalog env w = some (Parsed.found d) →
        d.packages.find? (fun q => pyLower q.name == pyLower name) = some pkg →
        env.platform_name ∈ pkg.os →
        (skip = true ∨ pyStripLower (env.confirm name) = "y") →
        lookupKey pkg.url env.platform_name = some url →
        lookupKey pkg.sha256 env.platform_name = some sha →
        env.net url = Except.ok bytes →
        lookupKey (install_package name skip env w).2.1.files (download_path env name url)
          = some bytes)
    ∧ (∀ url : String, '.' ∉ url.data → lastSplitDot url = url)
    ∧ (∀ url : String, url.data.getLast? = some '.' → lastSplitDot url = "") := by
  refine ⟨?_, ?_, ?_⟩
  · intro name skip env w d pkg url sha bytes hname hcat hfind hos hconf hurl hsha hnet
    have heq := installStep_single_eq 999 name skip env w d hname hcat
    simp only [hfind] at heq
    unfold install_package
    rw [show (1000 : Nat) = 999 + 1 from rfl, heq]
    by_cases hg : sha256hex bytes = sha
    · rw [installResolved_success env name skip pkg _ url sha bytes hos hconf hurl hsha hnet hg]
      exact lookupKey_dictSet_self _ _ _
    · rw [installResolved_mismatch env name skip pkg _ url sha bytes hos hconf hurl hsha hnet hg]
      exact lookupKey_dictSet_self _ _ _
  · intro url hdot
    obtain ⟨l⟩ := url
    show String.mk ((pySplitDot l).getLastD []) = String.mk l
    rw [pySplitDot_noDot l hdot]
    rfl
  · intro url hlast
    have hne : url.data ≠ [] := by
      intro h
      rw [h] at hlast
      simp at hlast
    have h1 : url.data.getLast hne = '.' := by
      have h2 := List.getLast?_eq_getLast url.data hne
      rw [h2] at hlast
      exact Option.some.inj hlast
    have h3 : url.data.dropLast ++ ['.'] = url.data := by
      rw [← h1]
      exact List.dropLast_append_getLast hne
    unfold lastSplitDot
    rw [← h3, pySplitDot_trailing]

theorem c10_download_extension_witness :
    lookupKey (install_package "Foo" true envC9 wldC9).2.1.files
        (download_path envC9 "Foo" "http://h/b.zip") = some [7]
    ∧ lastSplitDot "httpnodots" = "httpnodots"
    ∧ lastSplitDot "ends." = "" :=
  ⟨c10_download_extension.1 "Foo" true envC9 wldC9
      { updateurl := none, packages := [pkgLowerFoo] } pkgLowerFoo "http://h/b.zip"
      (sha256hex [7]) [7] (by decide) rfl rfl (by decide) (Or.inl rfl) rfl rfl rfl,
   c10_download_extension.2.1 "httpnodots" (by decide),
   c10_download_extension.2.2 "ends." (by decide)⟩

theorem installStep_loop_nil (fuel : Nat) (skip : Bool) (env : Env) (w : World) :
    installStep (fuel + 1) (InstallCall.loop [] skip) env w = (Outcome.ok, w, []) := rfl

theorem installStep_loop_cons (fuel : Nat) (p : Package) (ps : List Package) (skip : Bool)
    (env : Env) (w : World) :
    installStep (fuel + 1) (InstallCall.loop (p :: ps) skip) env w
      = match installStep fuel (InstallCall.single p.name skip) env w with
        | (Outcome.err e, w1, tr1) => (Outcome.err e, w1, tr1)
        | (_, w1, tr1) =>
            match installStep fuel (InstallCall.loop ps skip) env w1 with
            | (o2, w2, tr2) => (o2, w2, tr1 ++ tr2) := rfl

/-- A non-wildcard single install makes no recursive call, so its result
does not depend on the fuel. -/
theorem installStep_single_fuel (f g : Nat) (name : String) (skip : Bool)
    (env : Env) (w : World) (hname : name ≠ "*") :
    installStep (f + 1) (InstallCall.single name skip) env w
      = installStep (g + 1) (InstallCall.single name skip) env w := by
  simp only [installStep, if_neg hname]

/-- Fail-fast shape of the wildcard loop: when the loop over a prefix
ends without error and the next package fails, the loop over the whole
catalog aborts with that failure, the final world is the one after the
failing package, and the remaining packages contribute nothing. -/
theorem installLoop_abort :
    ∀ (l₁ l₂ : List Package) (p : Package) (skip : Bool) (env : Env)
      (fuel : Nat) (w0 w1 : World) (tr1 : List Event) (e : TbErr) (w2 : World) (tr2 : List Event),
      (∀ q ∈ l₁, q.name ≠ "*") → p.name ≠ "*" →
      l₁.length + 2 ≤ fuel →
      installStep fuel (InstallCall.loop l₁ skip) env w0 = (Outcome.ok, w1, tr1) →
      installStep fuel (InstallCall.single p.name skip) env w1 = (Outcome.err e, w2, tr2) →
      installStep fuel (InstallCall.loop (l₁ ++ p :: l₂) skip) env w0
        = (Outcome.err e, w2, tr1 ++ tr2) := by
  intro l₁
  induction l₁ with
  | nil =>
      intro l₂ p skip env fuel w0 w1 tr1 e w2 tr2 _ hp hfuel hloop hsingle
      obtain ⟨f, rfl⟩ : ∃ f, fuel = f + 1 := ⟨fuel - 1, by omega⟩
      obtain ⟨f2, rfl⟩ : ∃ f2, f = f2 + 1 := ⟨f - 1, by omega⟩
      rw [installStep_loop_nil] at hloop
      obtain ⟨-, hw, htr⟩ : Outcome.ok = Outcome.ok ∧ w0 = w1 ∧ ([] : List Event) = tr1 := by
        simpa using hloop
      subst hw
      subst htr
      have hs : installStep (f2 + 1) (InstallCall.single p.name skip) env w0
          = (Outcome.err e, w2, tr2) := by
        rw [installStep_single_fuel f2 (f2 + 1) p.name skip env w0 hp]
        exact hsingle
      simp only [List.nil_append]
      rw [installStep_loop_cons, hs]
  | cons q l₁ ih =>
      intro l₂ p skip env fuel w0 w1 tr1 e w2 tr2 hstar hp hfuel hloop hsingle
      obtain ⟨f, rfl⟩ : ∃ f, fuel = f + 1 := ⟨fuel - 1, by omega⟩
      have hq : q.name ≠ "*" := hstar q (by simp)
      have hstar1 : ∀ r ∈ l₁, r.name ≠ "*" := fun r hr => hstar r (by simp [hr])
      rw [installStep_loop_cons] at hloop
      rcases ho : installStep f (InstallCall.single q.name skip) env w0 with ⟨o, wq, trq⟩
      rw [ho] at hloop
      cases o with
      | err e2 => simp at hloop
      | ok =>
          replace hloop : (match installStep f (InstallCall.loop l₁ skip) env wq with
              | (o2, w2, tr2) => (o2, w2, trq ++ tr2)) = (Outcome.ok, w1, tr1) := hloop
          rcases hrest : installStep f (InstallCall.loop l₁ skip) env wq with ⟨o2, wl, trl⟩
          rw [hrest] at hloop
          obtain ⟨h2a, h2b, h2c⟩ : o2 = Outcome.ok ∧ wl = w1 ∧ trq ++ trl = tr1 := by
            simpa using hloop
          rw [h2a, h2b] at hrest
          obtain ⟨f2, rfl⟩ : ∃ f2, f = f2 + 1 := ⟨f - 1, by omega⟩
          have hs : installStep (f2 + 1) (InstallCall.single p.name skip) env w1
              = (Outcome.err e, w2, tr2) := by
            rw [installStep_single_fuel f2 (f2 + 1) p.name skip env w1 hp]
            exact hsingle
          have hihc := ih l₂ p skip env (f2 + 1) wq w1 trl e w2 tr2 hstar1 hp
            (by simp at hfuel; omega) hrest hs
          rw [List.cons_append, installStep_loop_cons, ho]
          show (match installStep (f2 + 1) (InstallCall.loop (l₁ ++ p :: l₂) skip) env wq with
              | (o2, w2, tr2) => (o2, w2, trq ++ tr2)) = (Outcome.err e, w2, tr1 ++ tr2)
          rw [hihc, ← h2c, List.append_assoc]
      | cancelled =>
          replace hloop : (match installStep f (InstallCall.loop l₁ skip) env wq with
              | (o2, w2, tr2) => (o2, w2, trq ++ tr2)) = (Outcome.ok, w1, tr1) := hloop
          rcases hrest : installStep f (InstallCall.loop l₁ skip) env wq with ⟨o2, wl, trl⟩
          rw [hrest] at hloop
          obtain ⟨h2a, h2b, h2c⟩ : o2 = Outcome.ok ∧ wl = w1 ∧ trq ++ trl = tr1 := by
            simpa using hloop
          rw [h2a, h2b] at hrest
          obtain ⟨f2, rfl⟩ : ∃ f2, f = f2 + 1 := ⟨f - 1, by omega⟩
          have hs : installStep (f2 + 1) (InstallCall.single p.name skip) env w1
              = (Outcome.err e, w2, tr2) := by
            rw [installStep_single_fuel f2 (f2 + 1) p.name skip env w1 hp]
            exact hsingle
          have hihc := ih l₂ p skip env (f2 + 1) wq w1 trl e w2 tr2 hstar1 hp
            (by simp at hfuel; omega) hrest hs
          rw [List.cons_append, installStep_loop_cons, ho]
          show (match installStep (f2 + 1) (InstallCall.loop (l₁ ++ p :: l₂) skip) env wq with
              | (o2, w2, tr2) => (o2, w2, trq ++ tr2)) = (Outcome.err e, w2, tr1 ++ tr2)
          rw [hihc, ← h2c, List.append_assoc]

/-- C8: a wildcard install runs the sequential loop over every catalog
descriptor in order, each iteration a full single install of the
descriptor name with the per-package confirmation policy; and the loop is
fail-fast: when the loop over a prefix ends without error and the next
package fails, the whole run aborts with that failure, leaving exactly
the effects of the prefix and of the failing package, and the remaining
descriptors are never processed. -/
theorem c8_wildcard (skip : Bool) (env : Env) (w : World) (d : CatalogData) (fuel : Nat)
    (hcat : effCatalog env w = some (Parsed.found d)) :
    (installStep (fuel + 1) (InstallCall.single "*" skip) env w
      = ((installStep fuel (InstallCall.loop d.packages skip) env
            (ensure_packages_file env w).2.1).1,
         (installStep fuel (InstallCall.loop d.packages skip) env
            (ensure_packages_file env w).2.1).2.1,
         (ensure_packages_file env w).2.2 ++
           (installStep fuel (InstallCall.loop d.packages skip) env
              (ensure_packages_file env w).2.1).2.2))
    ∧ (∀ (l₁ : List Package) (p : Package) (l₂ : List Package) (w1 : World)
         (tr1 : List Event) (e : TbErr) (w2 : World) (tr2 : List Event),
        d.packages = l₁ ++ p :: l₂ →
        (∀ q ∈ l₁, q.name ≠ "*") → p.name ≠ "*" →
        l₁.length + 2 ≤ fuel →
        installStep fuel (InstallCall.loop l₁ skip) env (ensure_packages_file env w).2.1
          = (Outcome.ok, w1, tr1) →
        installStep fuel (InstallCall.single p.name skip) env w1 = (Outcome.err e, w2, tr2) →
        installStep fuel (InstallCall.loop d.packages skip) env (ensure_packages_file env w).2.1
          = (Outcome.err e, w2, tr1 ++ tr2)) := by
  constructor
  · have hens := ensure_catalog env w _ hcat
    rcases he : ensure_packages_file env w with ⟨e, w1, tr⟩
    rw [he] at hens
    obtain ⟨h1, h2⟩ := hens
    subst h1
    replace h2 : w1.catalog = some (Parsed.found d) := h2
    rcases hr : installStep fuel (InstallCall.loop d.packages skip) env w1 with ⟨o, w2, tr2⟩
    simp [installStep, he, h2, hr]
  · intro l₁ p l₂ w1 tr1 e w2 tr2 hsplit hstar hp hfuel hloop hsingle
    rw [hsplit]
    exact installLoop_abort l₁ l₂ p skip env fuel _ w1 tr1 e w2 tr2 hstar hp hfuel hloop hsingle

def envC8 : Env :=
  { appdata := "A", platform_name := "Windows",
    fetchCatalog := Except.error "off", net := fun _ => Except.ok [7],
    confirm := fun _ => "y", now := "T", rmtreeFail := none }

def wldC8 : World :=
  { catalog := some (Parsed.found { updateurl := none, packages := [pkgLowerFoo, pkgBar] }),
    record := none, dirs := [], files := [] }

def w1C8 : World :=
  { catalog := some (Parsed.found { updateurl := none, packages := [pkgLowerFoo, pkgBar] }),
    record := some (Parsed.found [("foo", { version := "1.0", installed_on := "T" })]),
    dirs := ["A/ravendevteam/foo"], files := [("A/ravendevteam/foo/foo.zip", [7])] }

def tr1C8 : List Event :=
  [Event.mkdirp "A/ravendevteam/foo", Event.fetch "http://h/b.zip",
   Event.writeFile "A/ravendevteam/foo/foo.zip"]

theorem c8_wildcard_witness :
    installStep 9 (InstallCall.loop [pkgLowerFoo, pkgBar] true) envC8 wldC8
      = (Outcome.err (TbErr.unsupportedPlatform "bar" "Windows"), w1C8, tr1C8 ++ []) :=
  (c8_wildcard true envC8 wldC8 { updateurl := none, packages := [pkgLowerFoo, pkgBar] } 9
      rfl).2
    [pkgLowerFoo] pkgBar [] w1C8 tr1C8 (TbErr.unsupportedPlatform "bar" "Windows") w1C8 []
    rfl (by decide) (by decide) (by decide) (by decide) (by decide)
